import Mathlib

/-!
# Feed acquisition layer of tut (`api/feed.go`)

A shallow embedding of the pipeline operations of `api/feed.go` and the
properties of the join, thread assembly, search fallback and tag parsing.

Modelling conventions.

* A Go slice is a `List`; the nil slice and the empty slice are both `[]`.
* A Go `(value, error)` result is a pair `value × Option GoError`; `none` is the
  nil error.  A facade method may return a value together with an error.
* Pointers to records (`*mastodon.Status`, `*mastodon.Account`, ...) are the
  records themselves: they are taken to be non-nil.  The pagination pointer,
  which callers do pass as nil, is an `Option`.
* The remote client is a record of response functions, one per facade method.
  Every operation also reports the facade calls it issued, in order, each with
  the error it came back with (`Run.calls`).  This log is not in the Go code; it
  makes statements about issued calls expressible.
* Go strings are Lean strings.  The only separators used are the ASCII
  characters `'@'` and `' '`, for which splitting bytes and splitting code
  points agree.
-/

set_option autoImplicit false

namespace mastodon

/-- The Go type `mastodon.ID`, a string. -/
abbrev ID := String

/-- A Go `error` value. -/
structure GoError where
  msg : String
deriving DecidableEq, Repr

/-- The record `mastodon.Pagination`, an opaque cursor for this layer. -/
structure Pagination where
  MaxID : mastodon.ID
  SinceID : mastodon.ID
  MinID : mastodon.ID
  Limit : Int
deriving DecidableEq, Repr

/-- The record `mastodon.Account`: the identity and a payload. -/
structure Account where
  ID : mastodon.ID
  Acct : String
deriving DecidableEq, Repr

/-- The record `mastodon.Relationship`: the identity and a payload. -/
structure Relationship where
  ID : mastodon.ID
  Following : Bool
deriving DecidableEq, Repr

/-- The record `mastodon.Status`: the identity and a payload. -/
structure Status where
  ID : mastodon.ID
  Content : String
deriving DecidableEq, Repr

/-- The record `mastodon.StatusHistory`. -/
structure StatusHistory where
  Content : String
deriving DecidableEq, Repr

/-- The record `mastodon.Context` returned by `GetStatusContext`. -/
structure Context where
  Ancestors : List Status
  Descendants : List Status
deriving DecidableEq, Repr

/-- The record `mastodon.Notification`; `Account` is held by value. -/
structure Notification where
  ID : mastodon.ID
  Kind : String
  Account : mastodon.Account
deriving DecidableEq, Repr

/-- The record `mastodon.Conversation`. -/
structure Conversation where
  ID : mastodon.ID
  LastStatus : Status
deriving DecidableEq, Repr

/-- The record `mastodon.Tag`. -/
structure Tag where
  Name : String
deriving DecidableEq, Repr

/-- The record `mastodon.List`. -/
structure MList where
  ID : mastodon.ID
  Title : String
deriving DecidableEq, Repr

/-- The record `mastodon.TagData`. -/
structure TagData where
  Any : List String
  All : List String
  None : List String
deriving DecidableEq, Repr

/-- The facade `*mastodon.Client`: one response function per method used by
`feed.go` (the `context.Context` argument is always `context.Background()` and
is left out). -/
structure Client where
  GetTimelineHome : Option Pagination → List Status × Option GoError
  GetTimelinePublic : Bool → Option Pagination → List Status × Option GoError
  GetNotificationsExclude :
    List String → Option Pagination → List Notification × Option GoError
  GetAccountRelationships : List String → List Relationship × Option GoError
  GetStatusHistory : mastodon.ID → List StatusHistory × Option GoError
  GetStatusContext : mastodon.ID → Context × Option GoError
  GetFavourites : Option Pagination → List Status × Option GoError
  GetBookmarks : Option Pagination → List Status × Option GoError
  GetConversations : Option Pagination → List Conversation × Option GoError
  AccountsSearch : String → Int → Bool → List Account × Option GoError
  GetRebloggedBy : mastodon.ID → Option Pagination → List Account × Option GoError
  GetFavouritedBy : mastodon.ID → Option Pagination → List Account × Option GoError
  GetAccountFollowers : mastodon.ID → Option Pagination → List Account × Option GoError
  GetAccountFollowing : mastodon.ID → Option Pagination → List Account × Option GoError
  GetBlocks : Option Pagination → List Account × Option GoError
  GetMutes : Option Pagination → List Account × Option GoError
  GetFollowRequests : Option Pagination → List Account × Option GoError
  GetAccountStatuses : mastodon.ID → Option Pagination → List Status × Option GoError
  GetAccountPinnedStatuses : mastodon.ID → List Status × Option GoError
  TagsFollowed : Option Pagination → List Tag × Option GoError
  GetLists : List MList × Option GoError
  GetTimelineList : mastodon.ID → Option Pagination → List Status × Option GoError
  GetListAccounts : mastodon.ID → List Account × Option GoError
  GetTimelineHashtag : String → Bool → Option Pagination → List Status × Option GoError
  GetTimelineHashtagMultiple :
    String → Bool → TagData → Option Pagination → List Status × Option GoError

end mastodon

namespace strings

/-- Go `strings.HasPrefix`. -/
def HasPrefix (s pre : String) : Bool :=
  pre.data.isPrefixOf s.data

/-- Splitting a character list at every occurrence of `sep`: one more piece
than there are occurrences. -/
def splitChars (sep : Char) : List Char → List (List Char)
  | [] => [[]]
  | c :: cs =>
    if c = sep then [] :: splitChars sep cs
    else
      match splitChars sep cs with
      | [] => [[c]]
      | p :: ps => (c :: p) :: ps

/-- Go `strings.Split(s, sep)` for a separator of a single character. -/
def Split (s : String) (sep : Char) : List String :=
  (splitChars sep s.data).map String.mk

end strings

namespace api

open mastodon

/-- The type `config.NotificationToHide`, a string. -/
abbrev NotificationToHide := String

/-- A Go `interface{}` slot holding a provenance tag; `none` is nil. -/
abbrev AdditionalData := Option String

/-- The record `api.User`. -/
structure User where
  Data : Account
  Relation : Relationship
  AdditionalData : api.AdditionalData
deriving DecidableEq, Repr

/-- Modelled from the spec: the `Item` interface and its constructors
(`NewStatusItem`, `NewStatusHistoryItem`, `NewUserItem`, `NewNotificationItem`,
`NewTagItem`, `NewListsItem`) live in a file of the repository other than
`feed.go`.  Following the data model of the spec, a feed item is a discriminated
union over the six kinds; each item records the arguments its constructor was
called with, in particular the pinned flag. -/
inductive Item where
  | StatusItem (item : Status) (pinned : Bool)
  | StatusHistoryItem (item : StatusHistory)
  | UserItem (item : User) (pinned : Bool)
  | NotificationItem (item : Notification) (user : User)
  | TagItem (item : Tag)
  | ListsItem (item : MList)
deriving DecidableEq, Repr

/-- Modelled from the spec: constructor of a Status item with its pinned flag. -/
def NewStatusItem (item : Status) (pinned : Bool) : Item := Item.StatusItem item pinned

/-- Modelled from the spec: constructor of a StatusHistoryEntry item. -/
def NewStatusHistoryItem (item : StatusHistory) : Item := Item.StatusHistoryItem item

/-- Modelled from the spec: constructor of a User item. -/
def NewUserItem (item : User) (pinned : Bool) : Item := Item.UserItem item pinned

/-- Modelled from the spec: constructor of a Notification item. -/
def NewNotificationItem (item : Notification) (user : User) : Item :=
  Item.NotificationItem item user

/-- Modelled from the spec: constructor of a Tag item. -/
def NewTagItem (item : Tag) : Item := Item.TagItem item

/-- Modelled from the spec: constructor of a List item. -/
def NewListsItem (item : MList) : Item := Item.ListsItem item

/-- A facade call with its arguments. -/
inductive Call where
  | GetTimelineHome (pg : Option Pagination)
  | GetTimelinePublic (isLocal : Bool) (pg : Option Pagination)
  | GetNotificationsExclude (exclude : List String) (pg : Option Pagination)
  | GetAccountRelationships (ids : List String)
  | GetStatusHistory (id : mastodon.ID)
  | GetStatusContext (id : mastodon.ID)
  | GetFavourites (pg : Option Pagination)
  | GetBookmarks (pg : Option Pagination)
  | GetConversations (pg : Option Pagination)
  | AccountsSearch (q : String) (limit : Int) (resolve : Bool)
  | GetRebloggedBy (id : mastodon.ID) (pg : Option Pagination)
  | GetFavouritedBy (id : mastodon.ID) (pg : Option Pagination)
  | GetAccountFollowers (id : mastodon.ID) (pg : Option Pagination)
  | GetAccountFollowing (id : mastodon.ID) (pg : Option Pagination)
  | GetBlocks (pg : Option Pagination)
  | GetMutes (pg : Option Pagination)
  | GetFollowRequests (pg : Option Pagination)
  | GetAccountStatuses (id : mastodon.ID) (pg : Option Pagination)
  | GetAccountPinnedStatuses (id : mastodon.ID)
  | TagsFollowed (pg : Option Pagination)
  | GetLists
  | GetTimelineList (id : mastodon.ID) (pg : Option Pagination)
  | GetListAccounts (id : mastodon.ID)
  | GetTimelineHashtag (tag : String) (isLocal : Bool) (pg : Option Pagination)
  | GetTimelineHashtagMultiple (tag : String) (isLocal : Bool) (td : TagData)
      (pg : Option Pagination)
deriving DecidableEq, Repr

/-- One issued facade call and the error it returned. -/
structure Event where
  call : Call
  err : Option GoError
deriving DecidableEq, Repr

/-- What running a fetch closure `fn()` gives: the returned pair and the facade
calls the closure issued. -/
structure Fetch (α : Type) where
  val : α
  err : Option GoError
  calls : List Event

/-- A closure body that consists of one facade call. -/
def Fetch.ofCall {α : Type} (c : Call) (r : α × Option GoError) : Fetch α :=
  ⟨r.1, r.2, [⟨c, r.2⟩]⟩

/-- What a pipeline operation gives: the returned `([]Item, error)` and the
facade calls it issued, in order. -/
structure Run where
  items : List Item
  err : Option GoError
  calls : List Event
deriving DecidableEq, Repr

/-- The record `api.AccountClient`, reduced to its facade. -/
structure AccountClient where
  Client : mastodon.Client

/-- The loop `for _, s := range statuses { items = append(items, NewStatusItem(s, pinned)) }`. -/
def appendStatuses (pinned : Bool) (items : List Item) (statuses : List Status) : List Item :=
  statuses.foldl (fun items s => items ++ [NewStatusItem s pinned]) items

/-- The loop `for _, u := range users { ids = append(ids, string(u.ID)) }`. -/
def collectIDs (users : List Account) : List String :=
  users.foldl (fun ids u => ids ++ [u.ID]) []

/-- The inner loop of the join for one account `u`: scan `rel`, on the first
record with `u.ID == r.ID` append a User item and `break`. -/
def scanRel (u : Account) (data : AdditionalData) (items : List Item) :
    List Relationship → List Item
  | [] => items
  | r :: rest =>
    if u.ID = r.ID then
      items ++ [NewUserItem { Data := u, Relation := r, AdditionalData := data } false]
    else scanRel u data items rest

/-- The outer loop of the join: `for _, u := range users { for _, r := range rel { ... } }`. -/
def joinUsers (rel : List Relationship) (data : AdditionalData) (items : List Item)
    (users : List Account) : List Item :=
  users.foldl (fun items u => scanRel u data items rel) items

/-- Go `getStatusSimilar`. -/
def getStatusSimilar (_ac : AccountClient) (fn : Unit → Fetch (List Status))
    (_timeline : String) : Run :=
  let items : List Item := []
  let f := fn ()
  match f.err with
  | some e => ⟨items, some e, f.calls⟩
  | none => ⟨appendStatuses false items f.val, none, f.calls⟩

/-- Go `getUserSimilar`. -/
def getUserSimilar (ac : AccountClient) (fn : Unit → Fetch (List Account))
    (data : AdditionalData) : Run :=
  let items : List Item := []
  let f := fn ()
  match f.err with
  | some e => ⟨items, some e, f.calls⟩
  | none =>
    let ids := collectIDs f.val
    let rel := ac.Client.GetAccountRelationships ids
    let calls := f.calls ++ [⟨Call.GetAccountRelationships ids, rel.2⟩]
    match rel.2 with
    | some e => ⟨items, some e, calls⟩
    | none => ⟨joinUsers rel.1 data items f.val, none, calls⟩

/-- Go `GetTimeline`. -/
def GetTimeline (ac : AccountClient) (pg : Option Pagination) : Run :=
  getStatusSimilar ac
    (fun _ => Fetch.ofCall (Call.GetTimelineHome pg) (ac.Client.GetTimelineHome pg)) "home"

/-- Go `GetTimelineFederated`. -/
def GetTimelineFederated (ac : AccountClient) (pg : Option Pagination) : Run :=
  getStatusSimilar ac
    (fun _ => Fetch.ofCall (Call.GetTimelinePublic false pg)
      (ac.Client.GetTimelinePublic false pg)) "public"

/-- Go `GetTimelineLocal`. -/
def GetTimelineLocal (ac : AccountClient) (pg : Option Pagination) : Run :=
  getStatusSimilar ac
    (fun _ => Fetch.ofCall (Call.GetTimelinePublic true pg)
      (ac.Client.GetTimelinePublic true pg)) "public"

/-- The inner loop of `GetNotifications` for one notification `n`. -/
def scanRelNotification (n : Notification) (items : List Item) :
    List Relationship → List Item
  | [] => items
  | r :: rest =>
    if n.Account.ID = r.ID then
      items ++ [NewNotificationItem n
        { Data := n.Account, Relation := r, AdditionalData := none }]
    else scanRelNotification n items rest

/-- Go `GetNotifications`. -/
def GetNotifications (ac : AccountClient) (nth : List NotificationToHide)
    (pg : Option Pagination) : Run :=
  let items : List Item := []
  let toHide : List String := nth.foldl (fun toHide n => toHide ++ [n]) []
  let ns := ac.Client.GetNotificationsExclude toHide pg
  let calls : List Event := [⟨Call.GetNotificationsExclude toHide pg, ns.2⟩]
  match ns.2 with
  | some e => ⟨items, some e, calls⟩
  | none =>
    let ids : List String := ns.1.foldl (fun ids n => ids ++ [n.Account.ID]) []
    let rel := ac.Client.GetAccountRelationships ids
    let calls := calls ++ [⟨Call.GetAccountRelationships ids, rel.2⟩]
    match rel.2 with
    | some e => ⟨items, some e, calls⟩
    | none =>
      ⟨ns.1.foldl (fun items n => scanRelNotification n items rel.1) items, none, calls⟩

/-- Go `GetHistory`. -/
def GetHistory (ac : AccountClient) (status : Status) : Run :=
  let items : List Item := []
  let r := ac.Client.GetStatusHistory status.ID
  let calls : List Event := [⟨Call.GetStatusHistory status.ID, r.2⟩]
  match r.2 with
  | some e => ⟨items, some e, calls⟩
  | none => ⟨r.1.foldl (fun items s => items ++ [NewStatusHistoryItem s]) items, none, calls⟩

/-- Go `GetThread`. -/
def GetThread (ac : AccountClient) (status : Status) : Run :=
  let items : List Item := []
  let r := ac.Client.GetStatusContext status.ID
  let calls : List Event := [⟨Call.GetStatusContext status.ID, r.2⟩]
  match r.2 with
  | some e => ⟨items, some e, calls⟩
  | none =>
    let items := appendStatuses false items r.1.Ancestors
    let items := items ++ [NewStatusItem status false]
    let items := appendStatuses false items r.1.Descendants
    ⟨items, none, calls⟩

/-- Go `GetFavorites`. -/
def GetFavorites (ac : AccountClient) (pg : Option Pagination) : Run :=
  getStatusSimilar ac
    (fun _ => Fetch.ofCall (Call.GetFavourites pg) (ac.Client.GetFavourites pg)) "home"

/-- Go `GetBookmarks`. -/
def GetBookmarks (ac : AccountClient) (pg : Option Pagination) : Run :=
  getStatusSimilar ac
    (fun _ => Fetch.ofCall (Call.GetBookmarks pg) (ac.Client.GetBookmarks pg)) "home"

/-- Go `GetConversations`. -/
def GetConversations (ac : AccountClient) (pg : Option Pagination) : Run :=
  let items : List Item := []
  let r := ac.Client.GetConversations pg
  let calls : List Event := [⟨Call.GetConversations pg, r.2⟩]
  match r.2 with
  | some e => ⟨items, some e, calls⟩
  | none =>
    ⟨r.1.foldl (fun items c => items ++ [NewStatusItem c.LastStatus false]) items, none, calls⟩

/-- The first two statements of Go `GetUsers`: the exact search for a handle,
then the fuzzy search when `len(users) == 0 || err != nil`.  Gives the final
`users`, `err` and the searches issued. -/
def searchUsers (ac : AccountClient) (search : String) : Fetch (List Account) :=
  let s0 : Fetch (List Account) := ⟨[], none, []⟩
  let s1 : Fetch (List Account) :=
    if strings.HasPrefix search "@" && (strings.Split search '@').length == 3 then
      let r := ac.Client.AccountsSearch search 10 true
      ⟨r.1, r.2, s0.calls ++ [⟨Call.AccountsSearch search 10 true, r.2⟩]⟩
    else s0
  if s1.val.length == 0 || s1.err != none then
    let r := ac.Client.AccountsSearch search 10 false
    ⟨r.1, r.2, s1.calls ++ [⟨Call.AccountsSearch search 10 false, r.2⟩]⟩
  else s1

/-- Go `GetUsers`. -/
def GetUsers (ac : AccountClient) (search : String) : Run :=
  let items : List Item := []
  let f := searchUsers ac search
  match f.err with
  | some e => ⟨items, some e, f.calls⟩
  | none =>
    let ids := collectIDs f.val
    let rel := ac.Client.GetAccountRelationships ids
    let calls := f.calls ++ [⟨Call.GetAccountRelationships ids, rel.2⟩]
    match rel.2 with
    | some e => ⟨items, some e, calls⟩
    | none => ⟨joinUsers rel.1 none items f.val, none, calls⟩

/-- Go `GetBoostsStatus`. -/
def GetBoostsStatus (ac : AccountClient) (pg : Option Pagination) (id : mastodon.ID) : Run :=
  getUserSimilar ac
    (fun _ => Fetch.ofCall (Call.GetRebloggedBy id pg) (ac.Client.GetRebloggedBy id pg)) none

/-- Go `GetFavoritesStatus`. -/
def GetFavoritesStatus (ac : AccountClient) (pg : Option Pagination) (id : mastodon.ID) : Run :=
  getUserSimilar ac
    (fun _ => Fetch.ofCall (Call.GetFavouritedBy id pg) (ac.Client.GetFavouritedBy id pg)) none

/-- Go `GetFollowers`. -/
def GetFollowers (ac : AccountClient) (pg : Option Pagination) (id : mastodon.ID) : Run :=
  getUserSimilar ac
    (fun _ => Fetch.ofCall (Call.GetAccountFollowers id pg)
      (ac.Client.GetAccountFollowers id pg)) none

/-- Go `GetFollowing`. -/
def GetFollowing (ac : AccountClient) (pg : Option Pagination) (id : mastodon.ID) : Run :=
  getUserSimilar ac
    (fun _ => Fetch.ofCall (Call.GetAccountFollowing id pg)
      (ac.Client.GetAccountFollowing id pg)) none

/-- Go `GetBlocking`. -/
def GetBlocking (ac : AccountClient) (pg : Option Pagination) : Run :=
  getUserSimilar ac (fun _ => Fetch.ofCall (Call.GetBlocks pg) (ac.Client.GetBlocks pg)) none

/-- Go `GetMuting`. -/
def GetMuting (ac : AccountClient) (pg : Option Pagination) : Run :=
  getUserSimilar ac (fun _ => Fetch.ofCall (Call.GetMutes pg) (ac.Client.GetMutes pg)) none

/-- Go `GetFollowRequests`. -/
def GetFollowRequests (ac : AccountClient) (pg : Option Pagination) : Run :=
  getUserSimilar ac
    (fun _ => Fetch.ofCall (Call.GetFollowRequests pg) (ac.Client.GetFollowRequests pg)) none

/-- Go `GetUser`. -/
def GetUser (ac : AccountClient) (pg : Option Pagination) (id : mastodon.ID) : Run :=
  let items : List Item := []
  let r := ac.Client.GetAccountStatuses id pg
  let calls : List Event := [⟨Call.GetAccountStatuses id pg, r.2⟩]
  match r.2 with
  | some e => ⟨items, some e, calls⟩
  | none => ⟨appendStatuses false items r.1, none, calls⟩

/-- Go `GetUserPinned`. -/
def GetUserPinned (ac : AccountClient) (id : mastodon.ID) : Run :=
  let items : List Item := []
  let r := ac.Client.GetAccountPinnedStatuses id
  let calls : List Event := [⟨Call.GetAccountPinnedStatuses id, r.2⟩]
  match r.2 with
  | some e => ⟨items, some e, calls⟩
  | none => ⟨appendStatuses true items r.1, none, calls⟩

/-- Go `GetTags`. -/
def GetTags (ac : AccountClient) (pg : Option Pagination) : Run :=
  let items : List Item := []
  let r := ac.Client.TagsFollowed pg
  let calls : List Event := [⟨Call.TagsFollowed pg, r.2⟩]
  match r.2 with
  | some e => ⟨items, some e, calls⟩
  | none => ⟨r.1.foldl (fun items t => items ++ [NewTagItem t]) items, none, calls⟩

/-- Go `GetLists`. -/
def GetLists (ac : AccountClient) : Run :=
  let items : List Item := []
  let r := ac.Client.GetLists
  let calls : List Event := [⟨Call.GetLists, r.2⟩]
  match r.2 with
  | some e => ⟨items, some e, calls⟩
  | none => ⟨r.1.foldl (fun items l => items ++ [NewListsItem l]) items, none, calls⟩

/-- Go `GetListStatuses`. -/
def GetListStatuses (ac : AccountClient) (pg : Option Pagination) (id : mastodon.ID) : Run :=
  let items : List Item := []
  let r := ac.Client.GetTimelineList id pg
  let calls : List Event := [⟨Call.GetTimelineList id pg, r.2⟩]
  match r.2 with
  | some e => ⟨items, some e, calls⟩
  | none => ⟨appendStatuses false items r.1, none, calls⟩

/-- Go `GetFollowingForList`. -/
def GetFollowingForList (ac : AccountClient) (pg : Option Pagination) (id : mastodon.ID)
    (data : AdditionalData) : Run :=
  getUserSimilar ac
    (fun _ => Fetch.ofCall (Call.GetAccountFollowing id pg)
      (ac.Client.GetAccountFollowing id pg)) data

/-- Go `GetListUsers`. -/
def GetListUsers (ac : AccountClient) (_pg : Option Pagination) (id : mastodon.ID)
    (data : AdditionalData) : Run :=
  getUserSimilar ac
    (fun _ => Fetch.ofCall (Call.GetListAccounts id) (ac.Client.GetListAccounts id)) data

/-- Go `GetTag`. -/
def GetTag (ac : AccountClient) (pg : Option Pagination) (search : String) : Run :=
  getStatusSimilar ac
    (fun _ => Fetch.ofCall (Call.GetTimelineHashtag search false pg)
      (ac.Client.GetTimelineHashtag search false pg)) "public"

/-- The loop of the closure of Go `GetTagMultiple` over `parts` with their
indices: index 0 sets `s` (and `continue`s), a later non-empty part is appended
to `td.Any`. -/
def parseTags (parts : List String) : String × TagData :=
  parts.enum.foldl
    (fun (st : String × TagData) (ip : Nat × String) =>
      if ip.1 = 0 then (ip.2, st.2)
      else if ip.2.length > 0 then (st.1, { st.2 with Any := st.2.Any ++ [ip.2] })
      else st)
    ("", { Any := [], All := [], None := [] })

/-- Go `GetTagMultiple`. -/
def GetTagMultiple (ac : AccountClient) (pg : Option Pagination) (search : String) : Run :=
  getStatusSimilar ac
    (fun _ =>
      let parts := strings.Split search ' '
      let st := parseTags parts
      Fetch.ofCall (Call.GetTimelineHashtagMultiple st.1 false st.2 pg)
        (ac.Client.GetTimelineHashtagMultiple st.1 false st.2 pg)) "public"

/-- The account a User item carries. -/
def Item.actor? : Item → Option Account
  | Item.UserItem usr _ => some usr.Data
  | _ => none

/-- The notification a Notification item carries. -/
def Item.notification? : Item → Option Notification
  | Item.NotificationItem n _ => some n
  | _ => none

/-- Whether the item is a Status item of a status with the given ID. -/
def Item.isStatusWithID (id : mastodon.ID) : Item → Bool
  | Item.StatusItem s _ => decide (s.ID = id)
  | _ => false

/-- The pinned flag a Status item was built with. -/
def Item.statusPinned? : Item → Option Bool
  | Item.StatusItem _ pinned => some pinned
  | _ => none

/-- The first relationship record whose ID equals that of the account `u`. -/
def firstRel (rel : List Relationship) (u : Account) : Option Relationship :=
  rel.find? (fun r => decide (u.ID = r.ID))

/-- A facade on which every call returns an empty collection and no error. -/
def quietClient : mastodon.Client where
  GetTimelineHome := fun _ => ([], none)
  GetTimelinePublic := fun _ _ => ([], none)
  GetNotificationsExclude := fun _ _ => ([], none)
  GetAccountRelationships := fun _ => ([], none)
  GetStatusHistory := fun _ => ([], none)
  GetStatusContext := fun _ => (⟨[], []⟩, none)
  GetFavourites := fun _ => ([], none)
  GetBookmarks := fun _ => ([], none)
  GetConversations := fun _ => ([], none)
  AccountsSearch := fun _ _ _ => ([], none)
  GetRebloggedBy := fun _ _ => ([], none)
  GetFavouritedBy := fun _ _ => ([], none)
  GetAccountFollowers := fun _ _ => ([], none)
  GetAccountFollowing := fun _ _ => ([], none)
  GetBlocks := fun _ => ([], none)
  GetMutes := fun _ => ([], none)
  GetFollowRequests := fun _ => ([], none)
  GetAccountStatuses := fun _ _ => ([], none)
  GetAccountPinnedStatuses := fun _ => ([], none)
  TagsFollowed := fun _ => ([], none)
  GetLists := ([], none)
  GetTimelineList := fun _ _ => ([], none)
  GetListAccounts := fun _ => ([], none)
  GetTimelineHashtag := fun _ _ _ => ([], none)
  GetTimelineHashtagMultiple := fun _ _ _ _ => ([], none)

/-- A client whose relationship lookup always answers `rel` with error `err`. -/
def relClient (rel : List Relationship) (err : Option GoError) : AccountClient :=
  ⟨{ quietClient with GetAccountRelationships := fun _ => (rel, err) }⟩

/-- A client whose status-context call answers `ctx` without error. -/
def contextClient (ctx : Context) : AccountClient :=
  ⟨{ quietClient with GetStatusContext := fun _ => (ctx, none) }⟩

/-- A client answering `ns` to the notification fetch and `rel` to the
relationship lookup, without error. -/
def notificationClient (ns : List Notification) (rel : List Relationship) : AccountClient :=
  ⟨{ quietClient with
      GetNotificationsExclude := fun _ _ => (ns, none)
      GetAccountRelationships := fun _ => (rel, none) }⟩

/-- A client answering `ss` to every status fetch, without error. -/
def statusClient (ss : List Status) : AccountClient :=
  ⟨{ quietClient with
      GetAccountPinnedStatuses := fun _ => (ss, none)
      GetAccountStatuses := fun _ _ => (ss, none)
      GetTimelineHome := fun _ => (ss, none)
      GetTimelineHashtagMultiple := fun _ _ _ _ => (ss, none) }⟩

/-- Every item of the run is a Status item built with the pinned flag `b`. -/
def Run.allPinned (r : Run) (b : Bool) : Prop :=
  ∀ it ∈ r.items, it.statusPinned? = some b

/-- A client whose exact-resolution search fails while the fuzzy search finds
one account, for which the relationship lookup has a record. -/
def exactFailClient : AccountClient :=
  ⟨{ quietClient with
      AccountsSearch := fun _ _ resolve =>
        if resolve then ([], some ⟨"resolve failed"⟩) else ([⟨"1", "alice"⟩], none)
      GetAccountRelationships := fun _ => ([⟨"1", true⟩], none) }⟩

/-- A client whose status-context call fails with `e`. -/
def contextFailClient (ctx : Context) (e : GoError) : AccountClient :=
  ⟨{ quietClient with GetStatusContext := fun _ => (ctx, some e) }⟩

/-- A fetch closure that issues no facade call and returns `users`, `err`. -/
def constFetch {α : Type} (val : α) (err : Option GoError) : Unit → Fetch α :=
  fun _ => ⟨val, err, []⟩

/-- The operation returned no item and the error `e`. -/
def Run.failsWith (r : Run) (e : GoError) : Prop :=
  r.items = [] ∧ r.err = some e

instance (r : Run) (e : GoError) : Decidable (r.failsWith e) :=
  inferInstanceAs (Decidable (r.items = [] ∧ r.err = some e))

/-! ## Loop lemmas -/

theorem foldl_append_singleton {α β : Type} (f : α → β) (xs : List α) (init : List β) :
    xs.foldl (fun acc x => acc ++ [f x]) init = init ++ xs.map f := by
  induction xs generalizing init with
  | nil => simp
  | cons x xs ih => simp [ih]

theorem appendStatuses_eq (pinned : Bool) (items : List Item) (statuses : List Status) :
    appendStatuses pinned items statuses
      = items ++ statuses.map (fun s => Item.StatusItem s pinned) := by
  unfold appendStatuses
  exact foldl_append_singleton (fun s => NewStatusItem s pinned) statuses items

theorem collectIDs_eq (users : List Account) :
    collectIDs users = users.map (fun u => u.ID) := by
  unfold collectIDs
  simpa using foldl_append_singleton (fun u : Account => u.ID) users []

theorem scanRel_eq (u : Account) (data : AdditionalData) (items : List Item)
    (rel : List Relationship) :
    scanRel u data items rel
      = items ++ ((firstRel rel u).map
          (fun r => Item.UserItem ⟨u, r, data⟩ false)).toList := by
  induction rel with
  | nil => simp [scanRel, firstRel]
  | cons r rest ih =>
    by_cases h : u.ID = r.ID
    · simp [scanRel, firstRel, h, NewUserItem]
    · simp only [scanRel, h, if_false, ih]
      simp [firstRel, h]

theorem joinUsers_eq (rel : List Relationship) (data : AdditionalData) (items : List Item)
    (users : List Account) :
    joinUsers rel data items users
      = items ++ users.filterMap (fun u => (firstRel rel u).map
          (fun r => Item.UserItem ⟨u, r, data⟩ false)) := by
  unfold joinUsers
  induction users generalizing items with
  | nil => simp
  | cons u us ih =>
    rw [List.foldl_cons, ih, scanRel_eq, List.filterMap_cons]
    cases firstRel rel u <;> simp

theorem firstRel_isSome_iff (rel : List Relationship) (u : Account) :
    (firstRel rel u).isSome = rel.any (fun r => decide (u.ID = r.ID)) := by
  induction rel with
  | nil => simp [firstRel]
  | cons r rest ih =>
    by_cases h : u.ID = r.ID
    · simp [firstRel, h]
    · simpa [firstRel, h] using ih

theorem firstRel_some {rel : List Relationship} {u : Account} {r : Relationship}
    (h : firstRel rel u = some r) : r ∈ rel ∧ r.ID = u.ID := by
  unfold firstRel at h
  refine ⟨List.mem_of_find?_eq_some h, ?_⟩
  have := List.find?_some h
  exact (of_decide_eq_true this).symm

/-- The result of `getUserSimilar` when both calls return without error. -/
theorem getUserSimilar_ok (ac : AccountClient) (fn : Unit → Fetch (List Account))
    (data : AdditionalData) (users : List Account) (rel : List Relationship)
    (hfn : (fn ()).val = users) (hok : (fn ()).err = none)
    (hrel : ac.Client.GetAccountRelationships (users.map (fun u => u.ID)) = (rel, none)) :
    getUserSimilar ac fn data
      = ⟨users.filterMap (fun u => (firstRel rel u).map
            (fun r => Item.UserItem ⟨u, r, data⟩ false)),
          none,
          (fn ()).calls ++ [⟨Call.GetAccountRelationships (users.map (fun u => u.ID)), none⟩]⟩ := by
  unfold getUserSimilar
  simp only [hok, hfn, collectIDs_eq, hrel, joinUsers_eq, List.nil_append]

theorem actors_of_join (rel : List Relationship) (data : AdditionalData)
    (users : List Account) :
    (users.filterMap (fun u => (firstRel rel u).map
        (fun r => Item.UserItem ⟨u, r, data⟩ false))).filterMap Item.actor?
      = users.filter (fun u => rel.any (fun r => decide (u.ID = r.ID))) := by
  induction users with
  | nil => simp
  | cons u us ih =>
    have hs := firstRel_isSome_iff rel u
    cases h : firstRel rel u with
    | none =>
      rw [h] at hs
      simp only [List.filterMap_cons, h, Option.map_none', List.filter_cons, ← hs, ih]
      simp
    | some r =>
      rw [h] at hs
      simp only [List.filterMap_cons, h, Option.map_some', List.filter_cons, ← hs, ih,
        Item.actor?]
      simp

theorem filterMap_total {α β : Type} (f : α → Option β) (xs : List α)
    (h : ∀ x ∈ xs, (f x).isSome = true) : (xs.filterMap f).map some = xs.map f := by
  induction xs with
  | nil => simp
  | cons x xs ih =>
    have hx := h x (List.mem_cons_self x xs)
    have ih2 := ih (fun y hy => h y (List.mem_cons_of_mem x hy))
    cases hfx : f x with
    | none => rw [hfx] at hx; cases hx
    | some y => simp [List.filterMap_cons, hfx, ih2]

theorem firstRel_of_filter_length {rel : List Relationship} {u : Account}
    (h : (rel.filter (fun r => decide (u.ID = r.ID))).length = 1) :
    ∃ r, firstRel rel u = some r ∧
      rel.filter (fun r => decide (u.ID = r.ID)) = [r] := by
  obtain ⟨r, hr⟩ := List.length_eq_one.mp h
  refine ⟨r, ?_, hr⟩
  unfold firstRel
  rw [← List.filter_head?, hr]
  rfl

/-- **C1.** When the actor fetch returns `users` and the relationship lookup
returns `rel`, both without error, `getUserSimilar` returns no error and exactly
one User item for each input actor whose ID equals the ID of some record of
`rel`, in input order; the item carries the actor, the first record of `rel`
with the same ID, and `data`.  The actors carried by the output are the input
actors filtered by "some record of `rel` has this ID", and an actor whose ID is
absent from `rel` is carried by no output item. -/
theorem getUserSimilar_join (ac : AccountClient) (fn : Unit → Fetch (List Account))
    (data : AdditionalData) (users : List Account) (rel : List Relationship)
    (hfn : (fn ()).val = users) (hok : (fn ()).err = none)
    (hrel : ac.Client.GetAccountRelationships (users.map (fun u => u.ID)) = (rel, none)) :
    (getUserSimilar ac fn data).err = none ∧
    (getUserSimilar ac fn data).items
      = users.filterMap (fun u => (firstRel rel u).map
          (fun r => Item.UserItem { Data := u, Relation := r, AdditionalData := data } false)) ∧
    (getUserSimilar ac fn data).items.filterMap Item.actor?
      = users.filter (fun u => rel.any (fun r => decide (u.ID = r.ID))) ∧
    (∀ u : Account, (∀ r ∈ rel, r.ID ≠ u.ID) →
      ∀ it ∈ (getUserSimilar ac fn data).items, it.actor? ≠ some u) := by
  rw [getUserSimilar_ok ac fn data users rel hfn hok hrel]
  refine ⟨rfl, rfl, actors_of_join rel data users, ?_⟩
  intro u hu it hit hact
  simp only [List.mem_filterMap, Option.map_eq_some'] at hit
  obtain ⟨u1, _, r, hr, rfl⟩ := hit
  simp only [Item.actor?, Option.some.injEq] at hact
  subst hact
  exact hu r (firstRel_some hr).1 (firstRel_some hr).2

/-- Witness of C1: three actors, the second without a relationship record,
and two records for the third. -/
theorem getUserSimilar_join_witness :
    (getUserSimilar
        (relClient [⟨"3", true⟩, ⟨"1", false⟩, ⟨"3", false⟩] none)
        (constFetch [⟨"1", "a"⟩, ⟨"2", "b"⟩, ⟨"3", "c"⟩] none) (some "home")).items
      = [Item.UserItem ⟨⟨"1", "a"⟩, ⟨"1", false⟩, some "home"⟩ false,
         Item.UserItem ⟨⟨"3", "c"⟩, ⟨"3", true⟩, some "home"⟩ false] :=
  (getUserSimilar_join
    (relClient [⟨"3", true⟩, ⟨"1", false⟩, ⟨"3", false⟩] none)
    (constFetch [⟨"1", "a"⟩, ⟨"2", "b"⟩, ⟨"3", "c"⟩] none) (some "home")
    [⟨"1", "a"⟩, ⟨"2", "b"⟩, ⟨"3", "c"⟩]
    [⟨"3", true⟩, ⟨"1", false⟩, ⟨"3", false⟩] rfl rfl rfl).2.1.trans (by decide)

/-- With a complete response the join keeps every actor: the output is the
input mapped, each actor with its only record. -/
theorem join_complete (rel : List Relationship) (data : AdditionalData)
    (users : List Account)
    (hcomplete : ∀ u ∈ users, (rel.filter (fun r => decide (u.ID = r.ID))).length = 1) :
    (users.filterMap (fun u => (firstRel rel u).map
        (fun r => Item.UserItem ⟨u, r, data⟩ false))).map some
      = users.map (fun u => (firstRel rel u).map
          (fun r => Item.UserItem ⟨u, r, data⟩ false)) := by
  apply filterMap_total
  intro u hu
  obtain ⟨r, hr, _⟩ := firstRel_of_filter_length (hcomplete u hu)
  simp [hr]

theorem firstRel_perm {rel rel2 : List Relationship} (hp : rel2.Perm rel) (u : Account)
    (h : (rel.filter (fun r => decide (u.ID = r.ID))).length = 1) :
    firstRel rel2 u = firstRel rel u := by
  have hp2 := hp.filter (fun r => decide (u.ID = r.ID))
  have h2 : (rel2.filter (fun r => decide (u.ID = r.ID))).length = 1 := by
    rw [hp2.length_eq]; exact h
  obtain ⟨r, hr, hf⟩ := firstRel_of_filter_length h
  obtain ⟨r2, hr2, hf2⟩ := firstRel_of_filter_length h2
  rw [hf, hf2] at hp2
  have : r2 = r := by simpa using hp2
  rw [hr, hr2, this]

/-- **C2.** For a non-empty actor list and a complete relationship response
(for each actor exactly one record of `rel` has its ID), the output of
`getUserSimilar` has the length of the input, its i-th item is the User item of
the i-th input actor with the record of that actor, and the output is the same
for every reordering of the relationship records. -/
theorem getUserSimilar_complete (ac : AccountClient) (fn : Unit → Fetch (List Account))
    (data : AdditionalData) (users : List Account) (rel : List Relationship)
    (hne : users ≠ [])
    (hfn : (fn ()).val = users) (hok : (fn ()).err = none)
    (hrel : ac.Client.GetAccountRelationships (users.map (fun u => u.ID)) = (rel, none))
    (hcomplete : ∀ u ∈ users, (rel.filter (fun r => decide (u.ID = r.ID))).length = 1) :
    (getUserSimilar ac fn data).items.length = users.length ∧
    (getUserSimilar ac fn data).items.map Item.actor? = users.map some ∧
    (∀ (i : Nat) (h : i < users.length), ∃ r ∈ rel, r.ID = (users.get ⟨i, h⟩).ID ∧
      (getUserSimilar ac fn data).items[i]?
        = some (Item.UserItem
            { Data := users.get ⟨i, h⟩, Relation := r, AdditionalData := data } false)) ∧
    (∀ (ac2 : AccountClient) (rel2 : List Relationship), rel2.Perm rel →
      ac2.Client.GetAccountRelationships (users.map (fun u => u.ID)) = (rel2, none) →
      (getUserSimilar ac2 fn data).items = (getUserSimilar ac fn data).items) := by
  have _ := hne
  have hjoin := join_complete rel data users hcomplete
  have hlen : (users.filterMap (fun u => (firstRel rel u).map
        (fun r => Item.UserItem ⟨u, r, data⟩ false))).length = users.length := by
    simpa using congrArg List.length hjoin
  rw [getUserSimilar_ok ac fn data users rel hfn hok hrel]
  refine ⟨hlen, ?_, ?_, ?_⟩
  · have := congrArg (List.map (fun o : Option Item => o.bind Item.actor?)) hjoin
    simp only [List.map_map] at this
    refine Eq.trans ?_ (Eq.trans this ?_)
    · apply List.map_congr_left
      intro it _
      rfl
    · apply List.map_congr_left
      intro u hu
      obtain ⟨r, hr, _⟩ := firstRel_of_filter_length (hcomplete u hu)
      simp [hr, Item.actor?]
  · intro i h
    obtain ⟨r, hr, _⟩ := firstRel_of_filter_length (hcomplete _ (List.get_mem users i h))
    refine ⟨r, (firstRel_some hr).1, (firstRel_some hr).2, ?_⟩
    have := congrArg (fun l : List (Option Item) => l[i]?) hjoin
    simp only [List.getElem?_map] at this
    have hi : users[i]? = some (users.get ⟨i, h⟩) := by
      simp [List.getElem?_eq_getElem h]
    rw [hi] at this
    simp only [Option.map_some', hr] at this
    cases hx : (users.filterMap (fun u => (firstRel rel u).map
        (fun r => Item.UserItem ⟨u, r, data⟩ false)))[i]? with
    | none => rw [hx] at this; cases this
    | some y =>
      rw [hx] at this
      simp only [Option.map_some', Option.some.injEq] at this
      rw [this]
  · intro ac2 rel2 hp hrel2
    rw [getUserSimilar_ok ac2 fn data users rel2 hfn hok hrel2]
    apply List.filterMap_congr
    intro u hu
    rw [firstRel_perm hp u (hcomplete u hu)]

/-- Witness of C2: two actors, their records in the opposite order. -/
theorem getUserSimilar_complete_witness :
    (getUserSimilar (relClient [⟨"2", true⟩, ⟨"1", false⟩] none)
        (constFetch [⟨"1", "a"⟩, ⟨"2", "b"⟩] none) none).items.length = 2 ∧
    (getUserSimilar (relClient [⟨"2", true⟩, ⟨"1", false⟩] none)
        (constFetch [⟨"1", "a"⟩, ⟨"2", "b"⟩] none) none).items.map Item.actor?
      = [some ⟨"1", "a"⟩, some ⟨"2", "b"⟩] :=
  have h := getUserSimilar_complete (relClient [⟨"2", true⟩, ⟨"1", false⟩] none)
    (constFetch [⟨"1", "a"⟩, ⟨"2", "b"⟩] none) none
    [⟨"1", "a"⟩, ⟨"2", "b"⟩] [⟨"2", true⟩, ⟨"1", false⟩]
    (by decide) rfl rfl rfl (by decide)
  ⟨h.1, h.2.1⟩

/-! ## Error propagation -/

/-- The searches of `GetUsers`, by cases: for a handle the exact search, and the
fuzzy search after it when the exact one gave no account or an error; otherwise
the fuzzy search alone. -/
theorem searchUsers_eq (ac : AccountClient) (search : String) :
    searchUsers ac search =
      if (strings.HasPrefix search "@" && (strings.Split search '@').length == 3) = true then
        if (ac.Client.AccountsSearch search 10 true).1.length = 0
            ∨ (ac.Client.AccountsSearch search 10 true).2 ≠ none then
          ⟨(ac.Client.AccountsSearch search 10 false).1,
            (ac.Client.AccountsSearch search 10 false).2,
            [⟨Call.AccountsSearch search 10 true, (ac.Client.AccountsSearch search 10 true).2⟩,
             ⟨Call.AccountsSearch search 10 false, (ac.Client.AccountsSearch search 10 false).2⟩]⟩
        else
          ⟨(ac.Client.AccountsSearch search 10 true).1, none,
            [⟨Call.AccountsSearch search 10 true, none⟩]⟩
      else
        ⟨(ac.Client.AccountsSearch search 10 false).1,
          (ac.Client.AccountsSearch search 10 false).2,
          [⟨Call.AccountsSearch search 10 false, (ac.Client.AccountsSearch search 10 false).2⟩]⟩ := by
  unfold searchUsers
  by_cases hh : (strings.HasPrefix search "@" && (strings.Split search '@').length == 3) = true
  · simp only [hh, if_true]
    by_cases h1 : (ac.Client.AccountsSearch search 10 true).1.length = 0
    · simp [h1]
    · cases h2 : (ac.Client.AccountsSearch search 10 true).2 with
      | none => simp [h1, h2]
      | some e => simp [h2]
  · simp [hh]

/-- Every search that `GetUsers` logs, other than the exact search, is the fuzzy
search, and its error is the error of the search stage. -/
theorem searchUsers_calls (ac : AccountClient) (search : String) (ev : Event)
    (hev : ev ∈ (searchUsers ac search).calls)
    (hne : ev.call ≠ Call.AccountsSearch search 10 true) :
    ev.err = (searchUsers ac search).err := by
  rw [searchUsers_eq] at hev ⊢
  by_cases hh : (strings.HasPrefix search "@" && (strings.Split search '@').length == 3) = true
  · rw [if_pos hh] at hev ⊢
    by_cases h1 : (ac.Client.AccountsSearch search 10 true).1.length = 0
        ∨ (ac.Client.AccountsSearch search 10 true).2 ≠ none
    · rw [if_pos h1] at hev ⊢
      simp only [List.mem_cons, List.mem_singleton, List.not_mem_nil, or_false] at hev
      rcases hev with rfl | rfl
      · exact absurd rfl hne
      · rfl
    · rw [if_neg h1] at hev ⊢
      simp only [List.mem_singleton] at hev
      subst hev
      exact absurd rfl hne
  · rw [if_neg hh] at hev ⊢
    simp only [List.mem_singleton] at hev
    subst hev
    rfl

theorem toHide_eq (nth : List NotificationToHide) :
    nth.foldl (fun toHide n => toHide ++ [n]) ([] : List String) = nth := by
  simpa using foldl_append_singleton (fun n : String => n) nth []

theorem notificationIDs_eq (ns : List Notification) :
    ns.foldl (fun ids n => ids ++ [n.Account.ID]) ([] : List String)
      = ns.map (fun n => n.Account.ID) := by
  simpa using foldl_append_singleton (fun n : Notification => n.Account.ID) ns []

theorem GetUsers_error_of_call (ac : AccountClient) (search : String) (ev : Event)
    (e : GoError) (hev : ev ∈ (GetUsers ac search).calls)
    (hne : ev.call ≠ Call.AccountsSearch search 10 true) (herr : ev.err = some e) :
    (GetUsers ac search).failsWith e := by
  unfold GetUsers at hev ⊢
  cases hf : (searchUsers ac search).err with
  | some e2 =>
    simp only [hf] at hev ⊢
    have := searchUsers_calls ac search ev hev hne
    rw [herr, hf] at this
    cases this
    exact ⟨rfl, rfl⟩
  | none =>
    simp only [hf] at hev ⊢
    cases hr : (ac.Client.GetAccountRelationships (collectIDs (searchUsers ac search).val)).2 with
    | some e2 =>
      simp only [hr] at hev ⊢
      rcases List.mem_append.mp hev with h | h
      · have := searchUsers_calls ac search ev h hne
        rw [herr, hf] at this
        cases this
      · simp only [List.mem_singleton] at h
        subst h
        cases herr
        exact ⟨rfl, rfl⟩
    | none =>
      simp only [hr] at hev
      rcases List.mem_append.mp hev with h | h
      · have := searchUsers_calls ac search ev h hne
        rw [herr, hf] at this
        cases this
      · simp only [List.mem_singleton] at h
        subst h
        cases herr

/-- **C3, counterexample.** On the handle `"@alice@example.social"`, with a
facade whose exact search returns an error and whose fuzzy search finds one
account, `GetUsers` issues the exact search, which returns the error, and yet
returns one item and no error. -/
theorem GetUsers_exact_error_not_returned :
    (⟨Call.AccountsSearch "@alice@example.social" 10 true, some ⟨"resolve failed"⟩⟩ : Event)
        ∈ (GetUsers exactFailClient "@alice@example.social").calls ∧
    (exactFailClient.Client.AccountsSearch "@alice@example.social" 10 true).2
        = some ⟨"resolve failed"⟩ ∧
    (GetUsers exactFailClient "@alice@example.social").err = none ∧
    (GetUsers exactFailClient "@alice@example.social").items
        = [Item.UserItem ⟨⟨"1", "alice"⟩, ⟨"1", true⟩, none⟩ false] ∧
    ¬ (GetUsers exactFailClient "@alice@example.social").failsWith ⟨"resolve failed"⟩ := by
  decide

/-- **C3, amended.** Whenever a facade call issued by one of the pipeline
operations returns an error, the operation returns no item and that same error;
the one exception is the exact-resolution search of `GetUsers`, which is left
out: for `GetUsers` the statement covers every logged call other than the exact
search.  For the two shared handlers the fetch closure `fn` is the facade call.
An error of the relationship lookup gives no item at all. -/
theorem facade_error_propagates (ac : AccountClient) (e : GoError) :
    (∀ (fn : Unit → Fetch (List Status)) (timeline : String), (fn ()).err = some e →
      (getStatusSimilar ac fn timeline).failsWith e) ∧
    (∀ (fn : Unit → Fetch (List Account)) (data : AdditionalData), (fn ()).err = some e →
      (getUserSimilar ac fn data).failsWith e) ∧
    (∀ (fn : Unit → Fetch (List Account)) (data : AdditionalData), (fn ()).err = none →
      (ac.Client.GetAccountRelationships ((fn ()).val.map (fun u => u.ID))).2 = some e →
      (getUserSimilar ac fn data).failsWith e) ∧
    (∀ (nth : List NotificationToHide) (pg : Option Pagination),
      (ac.Client.GetNotificationsExclude nth pg).2 = some e →
      (GetNotifications ac nth pg).failsWith e) ∧
    (∀ (nth : List NotificationToHide) (pg : Option Pagination),
      (ac.Client.GetNotificationsExclude nth pg).2 = none →
      (ac.Client.GetAccountRelationships
        ((ac.Client.GetNotificationsExclude nth pg).1.map (fun n => n.Account.ID))).2 = some e →
      (GetNotifications ac nth pg).failsWith e) ∧
    (∀ status : Status, (ac.Client.GetStatusHistory status.ID).2 = some e →
      (GetHistory ac status).failsWith e) ∧
    (∀ status : Status, (ac.Client.GetStatusContext status.ID).2 = some e →
      (GetThread ac status).failsWith e) ∧
    (∀ pg : Option Pagination, (ac.Client.GetConversations pg).2 = some e →
      (GetConversations ac pg).failsWith e) ∧
    (∀ (search : String) (ev : Event), ev ∈ (GetUsers ac search).calls →
      ev.call ≠ Call.AccountsSearch search 10 true → ev.err = some e →
      (GetUsers ac search).failsWith e) ∧
    (∀ (pg : Option Pagination) (id : mastodon.ID),
      (ac.Client.GetAccountStatuses id pg).2 = some e → (GetUser ac pg id).failsWith e) ∧
    (∀ id : mastodon.ID, (ac.Client.GetAccountPinnedStatuses id).2 = some e →
      (GetUserPinned ac id).failsWith e) ∧
    (∀ pg : Option Pagination, (ac.Client.TagsFollowed pg).2 = some e →
      (GetTags ac pg).failsWith e) ∧
    ((ac.Client.GetLists).2 = some e → (GetLists ac).failsWith e) ∧
    (∀ (pg : Option Pagination) (id : mastodon.ID),
      (ac.Client.GetTimelineList id pg).2 = some e → (GetListStatuses ac pg id).failsWith e) := by
  refine ⟨?_, ?_, ?_, ?_, ?_, ?_, ?_, ?_, ?_, ?_, ?_, ?_, ?_, ?_⟩
  · intro fn tl h
    simp [getStatusSimilar, h, Run.failsWith]
  · intro fn data h
    simp [getUserSimilar, h, Run.failsWith]
  · intro fn data h hr
    simp [getUserSimilar, h, collectIDs_eq, hr, Run.failsWith]
  · intro nth pg h
    simp [GetNotifications, toHide_eq, h, Run.failsWith]
  · intro nth pg h hr
    simp [GetNotifications, toHide_eq, h, notificationIDs_eq, hr, Run.failsWith]
  · intro status h
    simp [GetHistory, h, Run.failsWith]
  · intro status h
    simp [GetThread, h, Run.failsWith]
  · intro pg h
    simp [GetConversations, h, Run.failsWith]
  · intro search ev hev hne herr
    exact GetUsers_error_of_call ac search ev e hev hne herr
  · intro pg id h
    simp [GetUser, h, Run.failsWith]
  · intro id h
    simp [GetUserPinned, h, Run.failsWith]
  · intro pg h
    simp [GetTags, h, Run.failsWith]
  · intro h
    simp [GetLists, h, Run.failsWith]
  · intro pg id h
    simp [GetListStatuses, h, Run.failsWith]

/-- Witness of the amended C3: a failing status-context call makes `GetThread`
return no item and the error, whatever context came with it. -/
theorem facade_error_propagates_witness :
    (GetThread (contextFailClient ⟨[⟨"9", "x"⟩], []⟩ ⟨"gone"⟩) ⟨"1", "hello"⟩).failsWith
      ⟨"gone"⟩ :=
  (facade_error_propagates (contextFailClient ⟨[⟨"9", "x"⟩], []⟩ ⟨"gone"⟩)
    ⟨"gone"⟩).2.2.2.2.2.2.1 ⟨"1", "hello"⟩ rfl

/-! ## Notifications -/

theorem scanRelNotification_eq (n : Notification) (items : List Item)
    (rel : List Relationship) :
    scanRelNotification n items rel
      = items ++ ((firstRel rel n.Account).map
          (fun r => Item.NotificationItem n ⟨n.Account, r, none⟩)).toList := by
  induction rel with
  | nil => simp [scanRelNotification, firstRel]
  | cons r rest ih =>
    by_cases h : n.Account.ID = r.ID
    · simp [scanRelNotification, firstRel, h, NewNotificationItem]
    · simp only [scanRelNotification, h, if_false, ih]
      simp [firstRel, h]

theorem joinNotifications_eq (rel : List Relationship) (items : List Item)
    (ns : List Notification) :
    ns.foldl (fun items n => scanRelNotification n items rel) items
      = items ++ ns.filterMap (fun n => (firstRel rel n.Account).map
          (fun r => Item.NotificationItem n ⟨n.Account, r, none⟩)) := by
  induction ns generalizing items with
  | nil => simp
  | cons n ns ih =>
    rw [List.foldl_cons, ih, scanRelNotification_eq, List.filterMap_cons]
    cases firstRel rel n.Account <;> simp

theorem notifications_of_join (rel : List Relationship) (ns : List Notification) :
    (ns.filterMap (fun n => (firstRel rel n.Account).map
        (fun r => Item.NotificationItem n ⟨n.Account, r, none⟩))).filterMap Item.notification?
      = ns.filter (fun n => rel.any (fun r => decide (n.Account.ID = r.ID))) := by
  induction ns with
  | nil => simp
  | cons n ns ih =>
    have hs := firstRel_isSome_iff rel n.Account
    cases h : firstRel rel n.Account with
    | none =>
      rw [h] at hs
      simp only [List.filterMap_cons, h, Option.map_none', List.filter_cons, ← hs, ih]
      simp
    | some r =>
      rw [h] at hs
      simp only [List.filterMap_cons, h, Option.map_some', List.filter_cons, ← hs, ih,
        Item.notification?]
      simp

/-- **C4.** When the facade returns the notifications `ns` without error,
`GetNotifications` issues, after the notification fetch, one relationship lookup
whose ID list is the actor IDs of `ns` in order.  When that lookup returns `rel`
without error, the result is, in the order of `ns`, one Notification item for
each notification whose actor ID equals the ID of some record of `rel`, paired
with a User holding the notification's account and the first record of `rel`
with that ID; the notifications carried are `ns` filtered by "some record has
the actor's ID", so a notification without a record is dropped as a whole. -/
theorem GetNotifications_join (ac : AccountClient) (nth : List NotificationToHide)
    (pg : Option Pagination) (ns : List Notification)
    (hns : ac.Client.GetNotificationsExclude nth pg = (ns, none)) :
    (GetNotifications ac nth pg).calls
      = [⟨Call.GetNotificationsExclude nth pg, none⟩,
         ⟨Call.GetAccountRelationships (ns.map (fun n => n.Account.ID)),
          (ac.Client.GetAccountRelationships (ns.map (fun n => n.Account.ID))).2⟩] ∧
    (∀ rel : List Relationship,
      ac.Client.GetAccountRelationships (ns.map (fun n => n.Account.ID)) = (rel, none) →
      (GetNotifications ac nth pg).err = none ∧
      (GetNotifications ac nth pg).items
        = ns.filterMap (fun n => (firstRel rel n.Account).map
            (fun r => Item.NotificationItem n
              { Data := n.Account, Relation := r, AdditionalData := none })) ∧
      (GetNotifications ac nth pg).items.filterMap Item.notification?
        = ns.filter (fun n => rel.any (fun r => decide (n.Account.ID = r.ID)))) := by
  constructor
  · unfold GetNotifications
    simp only [toHide_eq, hns, notificationIDs_eq]
    cases (ac.Client.GetAccountRelationships (ns.map (fun n => n.Account.ID))).2 <;> simp
  · intro rel hrel
    have hitems : (GetNotifications ac nth pg).items
        = ns.filterMap (fun n => (firstRel rel n.Account).map
            (fun r => Item.NotificationItem n ⟨n.Account, r, none⟩)) := by
      unfold GetNotifications
      simp only [toHide_eq, hns, notificationIDs_eq, hrel, joinNotifications_eq,
        List.nil_append]
    refine ⟨?_, hitems, ?_⟩
    · unfold GetNotifications
      simp only [toHide_eq, hns, notificationIDs_eq, hrel]
    · rw [hitems]
      exact notifications_of_join rel ns

/-- Witness of C4: the second notification's actor has no relationship
record. -/
theorem GetNotifications_join_witness :
    (GetNotifications
        (notificationClient [⟨"n1", "follow", ⟨"1", "a"⟩⟩, ⟨"n2", "mention", ⟨"2", "b"⟩⟩]
          [⟨"1", true⟩]) ["poll"] none).calls
      = [⟨Call.GetNotificationsExclude ["poll"] none, none⟩,
         ⟨Call.GetAccountRelationships ["1", "2"], none⟩] ∧
    (GetNotifications
        (notificationClient [⟨"n1", "follow", ⟨"1", "a"⟩⟩, ⟨"n2", "mention", ⟨"2", "b"⟩⟩]
          [⟨"1", true⟩]) ["poll"] none).items
      = [Item.NotificationItem ⟨"n1", "follow", ⟨"1", "a"⟩⟩ ⟨⟨"1", "a"⟩, ⟨"1", true⟩, none⟩] :=
  have h := GetNotifications_join
    (notificationClient [⟨"n1", "follow", ⟨"1", "a"⟩⟩, ⟨"n2", "mention", ⟨"2", "b"⟩⟩]
      [⟨"1", true⟩]) ["poll"] none
    [⟨"n1", "follow", ⟨"1", "a"⟩⟩, ⟨"n2", "mention", ⟨"2", "b"⟩⟩] rfl
  ⟨h.1.trans (by decide), (h.2 [⟨"1", true⟩] rfl).2.1.trans (by decide)⟩

/-! ## Thread assembly -/

/-- The items of `GetThread` when the context is returned without error. -/
theorem GetThread_items (ac : AccountClient) (status : Status) (ctx : Context)
    (h : ac.Client.GetStatusContext status.ID = (ctx, none)) :
    (GetThread ac status).items
      = ctx.Ancestors.map (fun s => Item.StatusItem s false)
        ++ Item.StatusItem status false
          :: ctx.Descendants.map (fun s => Item.StatusItem s false) := by
  unfold GetThread
  simp only [h, appendStatuses_eq, NewStatusItem, List.nil_append, List.append_assoc,
    List.singleton_append]

theorem countP_statusItems (id : mastodon.ID) (ss : List Status) :
    ((ss.map (fun s => Item.StatusItem s false)).filter (Item.isStatusWithID id)).length
      = (ss.filter (fun s => decide (s.ID = id))).length := by
  induction ss with
  | nil => rfl
  | cons s ss ih =>
    by_cases hs : s.ID = id
    · simp [List.filter_cons, Item.isStatusWithID, hs, ih]
    · simp [List.filter_cons, Item.isStatusWithID, hs, ih]

/-- **C5.** When the context of the focal status `status` is returned without
error with ancestors `A` and descendants `D`, `GetThread` returns no error and
exactly the Status items of `A` in order, then the Status item of the focal
status, then the Status items of `D` in order; the result has length
`|A| + 1 + |D|` and the focal item sits at index `|A|`. -/
theorem GetThread_order (ac : AccountClient) (status : Status) (ctx : Context)
    (h : ac.Client.GetStatusContext status.ID = (ctx, none)) :
    (GetThread ac status).err = none ∧
    (GetThread ac status).items
      = ctx.Ancestors.map (fun s => Item.StatusItem s false)
        ++ [Item.StatusItem status false]
        ++ ctx.Descendants.map (fun s => Item.StatusItem s false) ∧
    (GetThread ac status).items.length
      = ctx.Ancestors.length + 1 + ctx.Descendants.length ∧
    (GetThread ac status).items[ctx.Ancestors.length]?
      = some (Item.StatusItem status false) := by
  rw [GetThread_items ac status ctx h]
  refine ⟨?_, by simp, by simp; omega, ?_⟩
  · unfold GetThread
    simp only [h]
  · rw [List.getElem?_append_right (by simp)]
    simp

/-- Witness of C5: ancestors `[a1, a2]`, focal `F`, descendants `[d1]` give
`[a1, a2, F, d1]`. -/
theorem GetThread_order_witness :
    (GetThread (contextClient ⟨[⟨"a1", "x"⟩, ⟨"a2", "y"⟩], [⟨"d1", "z"⟩]⟩) ⟨"F", "f"⟩).items
      = [Item.StatusItem ⟨"a1", "x"⟩ false, Item.StatusItem ⟨"a2", "y"⟩ false,
         Item.StatusItem ⟨"F", "f"⟩ false, Item.StatusItem ⟨"d1", "z"⟩ false] :=
  (GetThread_order (contextClient ⟨[⟨"a1", "x"⟩, ⟨"a2", "y"⟩], [⟨"d1", "z"⟩]⟩) ⟨"F", "f"⟩
    ⟨[⟨"a1", "x"⟩, ⟨"a2", "y"⟩], [⟨"d1", "z"⟩]⟩ rfl).2.1.trans (by decide)

/-- **C10, counterexample.** When the returned ancestors already contain the
focal status, `GetThread` returns it twice: the payload `[F]`, `[]` for the focal
status `F` gives `[F, F]`. -/
theorem GetThread_duplicates_focal :
    (GetThread (contextClient ⟨[⟨"F", "f"⟩], []⟩) ⟨"F", "f"⟩).err = none ∧
    (GetThread (contextClient ⟨[⟨"F", "f"⟩], []⟩) ⟨"F", "f"⟩).items
      = [Item.StatusItem ⟨"F", "f"⟩ false, Item.StatusItem ⟨"F", "f"⟩ false] ∧
    ((GetThread (contextClient ⟨[⟨"F", "f"⟩], []⟩) ⟨"F", "f"⟩).items.filter
      (Item.isStatusWithID "F")).length = 2 := by
  decide

/-- **C10, amended.** When the context of the focal status is returned
without error, the item of the focal status is in the result (it is never
omitted), and the payload is not filtered: the number of Status items with the
focal ID is one more than the number of statuses with that ID among the
ancestors and descendants.  So the focal status occurs exactly once when the
payload holds no status with its ID. -/
theorem GetThread_focal_count (ac : AccountClient) (status : Status) (ctx : Context)
    (h : ac.Client.GetStatusContext status.ID = (ctx, none)) :
    Item.StatusItem status false ∈ (GetThread ac status).items ∧
    ((GetThread ac status).items.filter (Item.isStatusWithID status.ID)).length
      = 1 + (ctx.Ancestors.filter (fun s => decide (s.ID = status.ID))).length
          + (ctx.Descendants.filter (fun s => decide (s.ID = status.ID))).length ∧
    ((∀ s ∈ ctx.Ancestors ++ ctx.Descendants, s.ID ≠ status.ID) →
      ((GetThread ac status).items.filter (Item.isStatusWithID status.ID)).length = 1) := by
  rw [GetThread_items ac status ctx h]
  have hcount : ((ctx.Ancestors.map (fun s => Item.StatusItem s false)
        ++ Item.StatusItem status false
          :: ctx.Descendants.map (fun s => Item.StatusItem s false)).filter
        (Item.isStatusWithID status.ID)).length
      = 1 + (ctx.Ancestors.filter (fun s => decide (s.ID = status.ID))).length
          + (ctx.Descendants.filter (fun s => decide (s.ID = status.ID))).length := by
    rw [List.filter_append, List.length_append, List.filter_cons]
    simp only [Item.isStatusWithID, decide_True, if_true, List.length_cons,
      countP_statusItems]
    omega
  refine ⟨by simp, hcount, ?_⟩
  intro hno
  rw [hcount]
  have hA : ctx.Ancestors.filter (fun s => decide (s.ID = status.ID)) = [] := by
    apply List.filter_eq_nil_iff.mpr
    intro s hs
    simpa using hno s (List.mem_append_left _ hs)
  have hD : ctx.Descendants.filter (fun s => decide (s.ID = status.ID)) = [] := by
    apply List.filter_eq_nil_iff.mpr
    intro s hs
    simpa using hno s (List.mem_append_right _ hs)
  rw [hA, hD]
  rfl

/-- Witness of the amended C10: a payload without the focal ID. -/
theorem GetThread_focal_count_witness :
    ((GetThread (contextClient ⟨[⟨"a1", "x"⟩], [⟨"d1", "z"⟩]⟩) ⟨"F", "f"⟩).items.filter
      (Item.isStatusWithID "F")).length = 1 :=
  (GetThread_focal_count (contextClient ⟨[⟨"a1", "x"⟩], [⟨"d1", "z"⟩]⟩) ⟨"F", "f"⟩
    ⟨[⟨"a1", "x"⟩], [⟨"d1", "z"⟩]⟩ rfl).2.2 (by decide)

/-! ## The empty actor collection -/

/-- **C9, counterexample.** For an empty actor collection `getUserSimilar`
does issue the relationship lookup, with a zero-length ID list, and when that
lookup returns an error the operation returns the error; its result depends on
what the lookup returns. -/
theorem getUserSimilar_empty_issues_lookup :
    getUserSimilar (relClient [] (some ⟨"empty batch"⟩)) (constFetch [] none) none
      = ⟨[], some ⟨"empty batch"⟩,
          [⟨Call.GetAccountRelationships [], some ⟨"empty batch"⟩⟩]⟩ ∧
    getUserSimilar (relClient [] (some ⟨"empty batch"⟩)) (constFetch [] none) none
      ≠ getUserSimilar (relClient [] none) (constFetch [] none) none := by
  decide

/-- **C9, amended.** For an empty actor collection fetched without error,
`getUserSimilar` has no empty check: after the calls of the fetch it issues the
relationship lookup with the zero-length ID list, returns no item, and returns
as its error whatever error that lookup returned (none when it returned
none). -/
theorem getUserSimilar_empty (ac : AccountClient) (fn : Unit → Fetch (List Account))
    (data : AdditionalData) (hfn : (fn ()).val = []) (hok : (fn ()).err = none) :
    getUserSimilar ac fn data
      = ⟨[], (ac.Client.GetAccountRelationships []).2,
          (fn ()).calls
            ++ [⟨Call.GetAccountRelationships [], (ac.Client.GetAccountRelationships []).2⟩]⟩ := by
  unfold getUserSimilar
  simp only [hok, hfn, collectIDs_eq, List.map_nil, joinUsers_eq, List.filterMap_nil,
    List.append_nil]
  cases (ac.Client.GetAccountRelationships []).2 <;> rfl

/-- Witness of the amended C9: an empty fetch and a lookup without error. -/
theorem getUserSimilar_empty_witness :
    getUserSimilar (relClient [⟨"1", true⟩] none) (constFetch [] none) (some "home")
      = ⟨[], none, [⟨Call.GetAccountRelationships [], none⟩]⟩ :=
  getUserSimilar_empty (relClient [⟨"1", true⟩] none) (constFetch [] none) (some "home")
    rfl rfl

/-! ## User search -/

/-- **C6.** `GetUsers` is `getUserSimilar` without context data, run on the
outcome of its searches, so the accounts obtained go through the same
relationship join.  For a search string that begins with `'@'` and splits on
`'@'` into exactly three segments, the exact search (limit 10) is issued first;
the fuzzy search (same string, limit 10) is issued after it exactly when the
exact search returned zero accounts or an error, and then its accounts and error
replace those of the exact search.  For every other search string the fuzzy
search (limit 10) is the only search issued. -/
theorem GetUsers_search (ac : AccountClient) (search : String) :
    (strings.HasPrefix search "@" = true ∧ (strings.Split search '@').length = 3 →
      ((ac.Client.AccountsSearch search 10 true).1.length = 0
          ∨ (ac.Client.AccountsSearch search 10 true).2 ≠ none) →
      GetUsers ac search
        = getUserSimilar ac (fun _ =>
            ⟨(ac.Client.AccountsSearch search 10 false).1,
              (ac.Client.AccountsSearch search 10 false).2,
              [⟨Call.AccountsSearch search 10 true, (ac.Client.AccountsSearch search 10 true).2⟩,
               ⟨Call.AccountsSearch search 10 false,
                (ac.Client.AccountsSearch search 10 false).2⟩]⟩) none) ∧
    (strings.HasPrefix search "@" = true ∧ (strings.Split search '@').length = 3 →
      ¬ ((ac.Client.AccountsSearch search 10 true).1.length = 0
          ∨ (ac.Client.AccountsSearch search 10 true).2 ≠ none) →
      GetUsers ac search
        = getUserSimilar ac (fun _ =>
            ⟨(ac.Client.AccountsSearch search 10 true).1, none,
              [⟨Call.AccountsSearch search 10 true, none⟩]⟩) none) ∧
    (¬ (strings.HasPrefix search "@" = true ∧ (strings.Split search '@').length = 3) →
      GetUsers ac search
        = getUserSimilar ac (fun _ =>
            ⟨(ac.Client.AccountsSearch search 10 false).1,
              (ac.Client.AccountsSearch search 10 false).2,
              [⟨Call.AccountsSearch search 10 false,
                (ac.Client.AccountsSearch search 10 false).2⟩]⟩) none) := by
  have hgen : GetUsers ac search = getUserSimilar ac (fun _ => searchUsers ac search) none := rfl
  rw [hgen, searchUsers_eq]
  refine ⟨?_, ?_, ?_⟩
  · intro hh h1
    have hh2 : (strings.HasPrefix search "@" && (strings.Split search '@').length == 3) = true := by
      simp [hh.1, hh.2]
    rw [if_pos hh2, if_pos h1]
  · intro hh h1
    have hh2 : (strings.HasPrefix search "@" && (strings.Split search '@').length == 3) = true := by
      simp [hh.1, hh.2]
    rw [if_pos hh2, if_neg h1]
  · intro hh
    have hh2 : ¬ (strings.HasPrefix search "@" && (strings.Split search '@').length == 3) = true := by
      intro hc
      apply hh
      simpa using hc
    rw [if_neg hh2]

/-- Witness of C6: on `"@alice@example.social"` with an exact search that
fails, the exact search, the fuzzy search and the relationship lookup are
issued in this order and the fuzzy result is joined. -/
theorem GetUsers_search_witness :
    GetUsers exactFailClient "@alice@example.social"
      = ⟨[Item.UserItem ⟨⟨"1", "alice"⟩, ⟨"1", true⟩, none⟩ false], none,
          [⟨Call.AccountsSearch "@alice@example.social" 10 true, some ⟨"resolve failed"⟩⟩,
           ⟨Call.AccountsSearch "@alice@example.social" 10 false, none⟩,
           ⟨Call.GetAccountRelationships ["1"], none⟩]⟩ :=
  ((GetUsers_search exactFailClient "@alice@example.social").1 (by decide) (by decide)).trans
    (by decide)

/-! ## Multi-tag parsing -/

theorem splitChars_ne_nil (sep : Char) (cs : List Char) : strings.splitChars sep cs ≠ [] := by
  cases cs with
  | nil => simp [strings.splitChars]
  | cons c cs =>
    unfold strings.splitChars
    split
    · simp
    · split <;> simp

/-- No piece of a split contains the separator. -/
theorem splitChars_no_sep (sep : Char) (cs : List Char) :
    ∀ p ∈ strings.splitChars sep cs, sep ∉ p := by
  induction cs with
  | nil => simp [strings.splitChars]
  | cons c cs ih =>
    unfold strings.splitChars
    split
    · intro p hp
      rcases List.mem_cons.mp hp with rfl | hp
      · simp
      · exact ih p hp
    · rename_i hc
      split
      · rename_i hnil
        exact absurd hnil (splitChars_ne_nil sep cs)
      · rename_i q qs hq
        rw [hq] at ih
        intro p hp
        rcases List.mem_cons.mp hp with rfl | hp
        · intro hmem
          rcases List.mem_cons.mp hmem with h | h
          · exact hc h.symm
          · exact ih q (List.mem_cons_self q qs) h
        · exact ih p (List.mem_cons_of_mem q hp)

/-- Joining the pieces of a split with the separator gives the input back. -/
theorem splitChars_join (sep : Char) (cs : List Char) :
    List.intercalate [sep] (strings.splitChars sep cs) = cs := by
  induction cs with
  | nil => simp [strings.splitChars, List.intercalate]
  | cons c cs ih =>
    unfold strings.splitChars
    split
    · rename_i hc
      subst hc
      cases hq : strings.splitChars c cs with
      | nil => exact absurd hq (splitChars_ne_nil c cs)
      | cons q qs =>
        rw [hq] at ih
        cases qs with
        | nil =>
          simp [List.intercalate, List.intersperse] at ih ⊢
          exact ih
        | cons q2 qs2 =>
          simp [List.intercalate, List.intersperse] at ih ⊢
          exact ih
    · split
      · rename_i hnil
        exact absurd hnil (splitChars_ne_nil sep cs)
      · rename_i q qs hq
        rw [hq] at ih
        cases qs with
        | nil =>
          simp [List.intercalate, List.intersperse] at ih ⊢
          exact ih
        | cons q2 qs2 =>
          simp [List.intercalate, List.intersperse] at ih ⊢
          exact ih

theorem Split_ne_nil (s : String) (sep : Char) : strings.Split s sep ≠ [] := by
  unfold strings.Split
  simpa using splitChars_ne_nil sep s.data

theorem string_length_pos_iff (p : String) : p.length > 0 ↔ p ≠ "" := by
  cases p with
  | mk data =>
    cases data with
    | nil => simp [String.length]
    | cons c cs =>
      simp only [String.length, List.length_cons, gt_iff_lt, Nat.zero_lt_succ, true_iff]
      intro hc
      have := congrArg String.data hc
      cases this

/-- The loop of `GetTagMultiple` from an index past 0: the non-empty parts are
appended to `Any`, `s` is untouched. -/
theorem parseTags_loop (ps : List String) (n : Nat) (st : String × TagData) :
    (ps.enumFrom (n + 1)).foldl
        (fun (st : String × TagData) (ip : Nat × String) =>
          if ip.1 = 0 then (ip.2, st.2)
          else if ip.2.length > 0 then (st.1, { st.2 with Any := st.2.Any ++ [ip.2] })
          else st) st
      = (st.1, { st.2 with Any := st.2.Any ++ ps.filter (fun p => decide (p ≠ "")) }) := by
  induction ps generalizing n st with
  | nil => simp
  | cons p ps ih =>
    rw [List.enumFrom_cons, List.foldl_cons, ih]
    by_cases hp : p = ""
    · subst hp
      simp [String.length]
    · have hlen : p.length > 0 := (string_length_pos_iff p).mpr hp
      simp [hlen, hp, List.filter_cons]

theorem parseTags_eq (parts : List String) :
    parseTags parts
      = (parts.headD "",
          { Any := parts.tail.filter (fun p => decide (p ≠ "")), All := [], None := [] }) := by
  cases parts with
  | nil => rfl
  | cons p ps =>
    unfold parseTags
    rw [List.enum, List.enumFrom_cons, List.foldl_cons]
    simp only [if_true, Nat.zero_add]
    rw [parseTags_loop]
    simp

theorem getStatusSimilar_calls (ac : AccountClient) (fn : Unit → Fetch (List Status))
    (timeline : String) : (getStatusSimilar ac fn timeline).calls = (fn ()).calls := by
  unfold getStatusSimilar
  cases h : (fn ()).err <;> simp only [h]

/-- **C7.** For every search string, `GetTagMultiple` splits it on single
spaces (the split is never empty) and issues one hashtag fetch whose primary tag
is the first token and whose "any of these" filter is exactly the non-empty
tokens after the first, in their order; empty tokens are skipped.  For
`"art photo "` the tokens are `"art"`, `"photo"`, `""`, the primary tag is
`"art"` and the additional tags are `["photo"]`. -/
theorem GetTagMultiple_parse (ac : AccountClient) (pg : Option Pagination)
    (search : String) :
    strings.Split search ' ' ≠ [] ∧
    (GetTagMultiple ac pg search).calls
      = [⟨Call.GetTimelineHashtagMultiple ((strings.Split search ' ').headD "") false
            { Any := (strings.Split search ' ').tail.filter (fun p => decide (p ≠ "")),
              All := [], None := [] } pg,
          (ac.Client.GetTimelineHashtagMultiple ((strings.Split search ' ').headD "") false
            { Any := (strings.Split search ' ').tail.filter (fun p => decide (p ≠ "")),
              All := [], None := [] } pg).2⟩] ∧
    strings.Split "art photo " ' ' = ["art", "photo", ""] ∧
    (GetTagMultiple ac pg "art photo ").calls
      = [⟨Call.GetTimelineHashtagMultiple "art" false
            { Any := ["photo"], All := [], None := [] } pg,
          (ac.Client.GetTimelineHashtagMultiple "art" false
            { Any := ["photo"], All := [], None := [] } pg).2⟩] := by
  have hcalls : ∀ search : String, (GetTagMultiple ac pg search).calls
      = [⟨Call.GetTimelineHashtagMultiple ((strings.Split search ' ').headD "") false
            { Any := (strings.Split search ' ').tail.filter (fun p => decide (p ≠ "")),
              All := [], None := [] } pg,
          (ac.Client.GetTimelineHashtagMultiple ((strings.Split search ' ').headD "") false
            { Any := (strings.Split search ' ').tail.filter (fun p => decide (p ≠ "")),
              All := [], None := [] } pg).2⟩] := by
    intro search
    unfold GetTagMultiple
    rw [getStatusSimilar_calls]
    simp only [parseTags_eq, Fetch.ofCall]
  have hsplit : strings.Split "art photo " ' ' = ["art", "photo", ""] := by decide
  refine ⟨Split_ne_nil search ' ', hcalls search, hsplit, ?_⟩
  rw [hcalls "art photo ", hsplit]
  rfl

/-! ## The pinned flag -/

theorem getStatusSimilar_ok (ac : AccountClient) (fn : Unit → Fetch (List Status))
    (timeline : String) (h : (fn ()).err = none) :
    (getStatusSimilar ac fn timeline).items
      = (fn ()).val.map (fun s => Item.StatusItem s false) := by
  unfold getStatusSimilar
  simp only [h, appendStatuses_eq, List.nil_append]

theorem getStatusSimilar_allPinned (ac : AccountClient) (fn : Unit → Fetch (List Status))
    (timeline : String) : (getStatusSimilar ac fn timeline).allPinned false := by
  intro it hit
  cases h : (fn ()).err with
  | some e =>
    have : (getStatusSimilar ac fn timeline).items = [] := by
      unfold getStatusSimilar
      simp only [h]
    rw [this] at hit
    cases hit
  | none =>
    rw [getStatusSimilar_ok ac fn timeline h] at hit
    obtain ⟨s, _, rfl⟩ := List.mem_map.mp hit
    rfl

theorem allPinned_of_map (r : Run) (b : Bool) (ss : List Status)
    (h : r.items = [] ∨ r.items = ss.map (fun s => Item.StatusItem s b)) : r.allPinned b := by
  intro it hit
  rcases h with h | h
  · rw [h] at hit
    cases hit
  · rw [h] at hit
    obtain ⟨s, _, rfl⟩ := List.mem_map.mp hit
    rfl

/-- **C8.** Every item emitted by `GetUserPinned` is a Status item built with
pinned = true, and every item emitted by the other status-producing operations
(`getStatusSimilar`, the timelines built on it, `GetThread`, `GetConversations`,
`GetUser`, `GetListStatuses`) is a Status item built with pinned = false.  When
the facade returns its status list without error, each operation emits one item
per input status, in input order (for `GetThread`: ancestors, focal status,
descendants; for `GetConversations`: the last status of each conversation). -/
theorem pinned_flag (ac : AccountClient) (pg : Option Pagination) (id : mastodon.ID)
    (search : String) (status : Status) (fn : Unit → Fetch (List Status))
    (timeline : String) :
    ((ac.Client.GetAccountPinnedStatuses id).2 = none →
      (GetUserPinned ac id).items
        = (ac.Client.GetAccountPinnedStatuses id).1.map (fun s => Item.StatusItem s true)) ∧
    (GetUserPinned ac id).allPinned true ∧
    ((fn ()).err = none →
      (getStatusSimilar ac fn timeline).items
        = (fn ()).val.map (fun s => Item.StatusItem s false)) ∧
    (getStatusSimilar ac fn timeline).allPinned false ∧
    ((ac.Client.GetTimelineHome pg).2 = none →
      (GetTimeline ac pg).items
        = (ac.Client.GetTimelineHome pg).1.map (fun s => Item.StatusItem s false)) ∧
    (GetTimeline ac pg).allPinned false ∧
    ((ac.Client.GetTimelinePublic false pg).2 = none →
      (GetTimelineFederated ac pg).items
        = (ac.Client.GetTimelinePublic false pg).1.map (fun s => Item.StatusItem s false)) ∧
    (GetTimelineFederated ac pg).allPinned false ∧
    ((ac.Client.GetTimelinePublic true pg).2 = none →
      (GetTimelineLocal ac pg).items
        = (ac.Client.GetTimelinePublic true pg).1.map (fun s => Item.StatusItem s false)) ∧
    (GetTimelineLocal ac pg).allPinned false ∧
    ((ac.Client.GetFavourites pg).2 = none →
      (GetFavorites ac pg).items
        = (ac.Client.GetFavourites pg).1.map (fun s => Item.StatusItem s false)) ∧
    (GetFavorites ac pg).allPinned false ∧
    ((ac.Client.GetBookmarks pg).2 = none →
      (GetBookmarks ac pg).items
        = (ac.Client.GetBookmarks pg).1.map (fun s => Item.StatusItem s false)) ∧
    (GetBookmarks ac pg).allPinned false ∧
    ((ac.Client.GetTimelineHashtag search false pg).2 = none →
      (GetTag ac pg search).items
        = (ac.Client.GetTimelineHashtag search false pg).1.map (fun s => Item.StatusItem s false)) ∧
    (GetTag ac pg search).allPinned false ∧
    ((ac.Client.GetTimelineHashtagMultiple (parseTags (strings.Split search ' ')).1 false
        (parseTags (strings.Split search ' ')).2 pg).2 = none →
      (GetTagMultiple ac pg search).items
        = (ac.Client.GetTimelineHashtagMultiple (parseTags (strings.Split search ' ')).1 false
        (parseTags (strings.Split search ' ')).2 pg).1.map (fun s => Item.StatusItem s false)) ∧
    (GetTagMultiple ac pg search).allPinned false ∧
    ((ac.Client.GetAccountStatuses id pg).2 = none →
      (GetUser ac pg id).items
        = (ac.Client.GetAccountStatuses id pg).1.map (fun s => Item.StatusItem s false)) ∧
    (GetUser ac pg id).allPinned false ∧
    ((ac.Client.GetTimelineList id pg).2 = none →
      (GetListStatuses ac pg id).items
        = (ac.Client.GetTimelineList id pg).1.map (fun s => Item.StatusItem s false)) ∧
    (GetListStatuses ac pg id).allPinned false ∧
    ((ac.Client.GetStatusContext status.ID).2 = none →
      (GetThread ac status).items
        = ((ac.Client.GetStatusContext status.ID).1.Ancestors ++ [status]
            ++ (ac.Client.GetStatusContext status.ID).1.Descendants).map
          (fun s => Item.StatusItem s false)) ∧
    (GetThread ac status).allPinned false ∧
    ((ac.Client.GetConversations pg).2 = none →
      (GetConversations ac pg).items
        = (ac.Client.GetConversations pg).1.map
            (fun c => Item.StatusItem c.LastStatus false)) ∧
    (GetConversations ac pg).allPinned false := by
  have hsim : ∀ (c : Call) (r : List Status × Option GoError) (tl : String),
      (r.2 = none → (getStatusSimilar ac (fun _ => Fetch.ofCall c r) tl).items
          = r.1.map (fun s => Item.StatusItem s false)) ∧
      (getStatusSimilar ac (fun _ => Fetch.ofCall c r) tl).allPinned false := by
    intro c r tl
    exact ⟨fun h => getStatusSimilar_ok ac (fun _ => Fetch.ofCall c r) tl h,
      getStatusSimilar_allPinned ac _ tl⟩
  have hdirect : ∀ (b : Bool) (r : List Status × Option GoError) (run : Run),
      (r.2 = none → run.items = r.1.map (fun s => Item.StatusItem s b)) →
      ((∃ e, r.2 = some e) → run.items = []) → run.allPinned b := by
    intro b r run hok herr
    apply allPinned_of_map run b r.1
    cases h : r.2 with
    | none => exact Or.inr (hok h)
    | some e => exact Or.inl (herr ⟨e, h⟩)
  have hpinned : (ac.Client.GetAccountPinnedStatuses id).2 = none →
      (GetUserPinned ac id).items
        = (ac.Client.GetAccountPinnedStatuses id).1.map (fun s => Item.StatusItem s true) := by
    intro h
    simp only [GetUserPinned, h, appendStatuses_eq, List.nil_append]
  have huser : (ac.Client.GetAccountStatuses id pg).2 = none →
      (GetUser ac pg id).items
        = (ac.Client.GetAccountStatuses id pg).1.map (fun s => Item.StatusItem s false) := by
    intro h
    simp only [GetUser, h, appendStatuses_eq, List.nil_append]
  have hlist : (ac.Client.GetTimelineList id pg).2 = none →
      (GetListStatuses ac pg id).items
        = (ac.Client.GetTimelineList id pg).1.map (fun s => Item.StatusItem s false) := by
    intro h
    simp only [GetListStatuses, h, appendStatuses_eq, List.nil_append]
  have hthread : (ac.Client.GetStatusContext status.ID).2 = none →
      (GetThread ac status).items
        = ((ac.Client.GetStatusContext status.ID).1.Ancestors ++ [status]
            ++ (ac.Client.GetStatusContext status.ID).1.Descendants).map
          (fun s => Item.StatusItem s false) := by
    intro h
    rw [GetThread_items ac status (ac.Client.GetStatusContext status.ID).1
      (Prod.ext rfl h)]
    simp
  have hconv : (ac.Client.GetConversations pg).2 = none →
      (GetConversations ac pg).items
        = (ac.Client.GetConversations pg).1.map
            (fun c => Item.StatusItem c.LastStatus false) := by
    intro h
    simp only [GetConversations, h]
    simpa using foldl_append_singleton
      (fun c : Conversation => NewStatusItem c.LastStatus false)
      (ac.Client.GetConversations pg).1 []
  refine ⟨hpinned, ?_, getStatusSimilar_ok ac fn timeline,
    getStatusSimilar_allPinned ac fn timeline,
    (hsim _ _ _).1, (hsim _ _ _).2, (hsim _ _ _).1, (hsim _ _ _).2,
    (hsim _ _ _).1, (hsim _ _ _).2, (hsim _ _ _).1, (hsim _ _ _).2,
    (hsim _ _ _).1, (hsim _ _ _).2, (hsim _ _ _).1, (hsim _ _ _).2,
    (hsim _ _ _).1, (hsim _ _ _).2, huser, ?_, hlist, ?_, hthread, ?_, hconv, ?_⟩
  · apply hdirect true (ac.Client.GetAccountPinnedStatuses id) _ hpinned
    rintro ⟨e, h⟩
    simp only [GetUserPinned, h]
  · apply hdirect false (ac.Client.GetAccountStatuses id pg) _ huser
    rintro ⟨e, h⟩
    simp only [GetUser, h]
  · apply hdirect false (ac.Client.GetTimelineList id pg) _ hlist
    rintro ⟨e, h⟩
    simp only [GetListStatuses, h]
  · apply allPinned_of_map _ false
      ((ac.Client.GetStatusContext status.ID).1.Ancestors ++ [status]
        ++ (ac.Client.GetStatusContext status.ID).1.Descendants)
    cases h : (ac.Client.GetStatusContext status.ID).2 with
    | none => exact Or.inr (hthread h)
    | some e =>
      left
      simp only [GetThread, h]
  · apply allPinned_of_map _ false
      ((ac.Client.GetConversations pg).1.map (fun c => c.LastStatus))
    cases h : (ac.Client.GetConversations pg).2 with
    | none =>
      right
      rw [hconv h, List.map_map]
      rfl
    | some e =>
      left
      simp only [GetConversations, h]

/-- Witness of C8: the same two statuses come out pinned from `GetUserPinned`
and not pinned from `GetUser`. -/
theorem pinned_flag_witness :
    (GetUserPinned (statusClient [⟨"1", "x"⟩, ⟨"2", "y"⟩]) "u").items
      = [Item.StatusItem ⟨"1", "x"⟩ true, Item.StatusItem ⟨"2", "y"⟩ true] ∧
    (GetUser (statusClient [⟨"1", "x"⟩, ⟨"2", "y"⟩]) none "u").items
      = [Item.StatusItem ⟨"1", "x"⟩ false, Item.StatusItem ⟨"2", "y"⟩ false] :=
  have h := pinned_flag (statusClient [⟨"1", "x"⟩, ⟨"2", "y"⟩]) none "u" "art"
    ⟨"F", "f"⟩ (constFetch [] none) "home"
  ⟨(h.1 rfl).trans (by decide),
   (h.2.2.2.2.2.2.2.2.2.2.2.2.2.2.2.2.2.2.1 rfl).trans (by decide)⟩

end api
